import Mathlib

/-!
Verification of the RBAC core of the cloud-user-service repository.

The Go source is shallowly embedded: the relational tables `role`,
`user_role`, `organisation` and `organisation_user` become lists of
records, a SQL `DELETE ... WHERE` becomes a `List.filter`, an
`INSERT` an append, an `UPDATE ... WHERE` a `List.map`, and
`uuid.NewString()` a fresh-id counter threaded through the state.
Fallible repository operations return `Except RepoError DB`.
-/

namespace UserService

/-- A row of the `role` table (types/roleRepository.go, `types.Role`):
id, name, owning group id, and the ten boolean capability flags. -/
structure Role where
  id : String
  name : String
  groupId : String
  renameGroup : Bool
  deleteGroup : Bool
  inviteMember : Bool
  removeMember : Bool
  createCase : Bool
  updateCaseMetadata : Bool
  deleteCase : Bool
  exportCase : Bool
  viewLogs : Bool
  exportLogs : Bool
deriving DecidableEq, Repr

/-- A row of the `user_role` table: surrogate id, user id, role id
(`INSERT INTO user_role VALUES (?, ?, ?)` in repository/role.go). -/
structure UserRole where
  id : String
  userId : String
  roleId : String
deriving DecidableEq, Repr

/-- A row of the `organisation_user` membership table: surrogate id,
user id, organisation (group) id. -/
structure OrgUser where
  id : String
  userId : String
  organisationId : String
deriving DecidableEq, Repr

/-- A row of the `organisation` table: id and display name. -/
structure Organisation where
  id : String
  name : String
deriving DecidableEq, Repr

/-- The relational state touched by the RBAC core, plus a counter that
models the freshness of `uuid.NewString()`. -/
structure DB where
  organisations : List Organisation
  orgUsers : List OrgUser
  roles : List Role
  userRoles : List UserRole
  nextId : Nat
deriving DecidableEq, Repr

/-- The error taxonomy of types/errors.go restricted to the errors the
embedded operations produce.  `genericSQL` carries a code so that
distinct environmental SQL failures can be told apart. -/
inductive RepoError where
  | notFound
  | forbiddenOperation
  | genericSQL (code : Nat)
deriving DecidableEq, Repr

/-- `SELECT name FROM role WHERE id = ?` followed by `QueryRow(...).Scan`:
the first stored role with the given id, if any. -/
def findRole (db : DB) (roleId : String) : Option Role :=
  db.roles.find? (fun r => r.id == roleId)

/-- Number of `user_role` rows referencing a role id
(`SELECT COUNT(*) FROM user_role WHERE roleId = ?`). -/
def holders (db : DB) (roleId : String) : Nat :=
  (db.userRoles.filter (fun ur => ur.roleId == roleId)).length

/-- `DELETE FROM user_role WHERE userId = ? AND roleId = ?`: removes
every assignment row matching both keys. -/
def deleteUserRole (db : DB) (userId : String) (roleId : String) : DB :=
  { db with
      userRoles := db.userRoles.filter (fun ur => !(ur.userId == userId && ur.roleId == roleId)) }

/-- `RemoveMemberRole` (repository/role.go:148-189): looks up the role
name by id (NotFound if absent); if the name is "Group Owner" and the
holder count is at most 1, fails with ForbiddenOperation; otherwise
executes the DELETE on the (userId, roleId) pair. -/
def RemoveMemberRole (db : DB) (userId : String) (roleId : String) : Except RepoError DB :=
  match findRole db roleId with
  | none => .error .notFound
  | some role =>
    if role.name = "Group Owner" ∧ holders db roleId ≤ 1 then
      .error .forbiddenOperation
    else
      .ok (deleteUserRole db userId roleId)

/-- The state a repository call leaves behind: the new state on success,
the unchanged input state on error (the surrounding transaction rolls
back, so a failed call performs no mutation). -/
def dbAfter (db : DB) (res : Except RepoError DB) : DB :=
  match res with
  | .ok db2 => db2
  | .error _ => db

instance : DecidableEq (Except RepoError DB) :=
  fun a b =>
    match a, b with
    | .ok x, .ok y => decidable_of_iff (x = y) (by simp)
    | .error x, .error y => decidable_of_iff (x = y) (by simp)
    | .ok _, .error _ => isFalse (by simp)
    | .error _, .ok _ => isFalse (by simp)

/-- Did a repository call return without error. -/
def succeeded (res : Except RepoError DB) : Bool :=
  match res with
  | .ok _ => true
  | .error _ => false

/-! ### Permission evaluation (api/middlewareHandler.go) -/

/-- Capability name constants of types (unnamed part, `RENAME_GROUP` etc.). -/
def RENAME_GROUP : String := "RenameGroup"

def DELETE_GROUP : String := "DeleteGroup"

def INVITE_MEMBER : String := "InviteMember"

def REMOVE_MEMBER : String := "RemoveMember"

def CREATE_CASE : String := "CreateCase"

def UPDATE_CASE_METADATA : String := "UpdateCaseMetadata"

def DELETE_CASE : String := "DeleteCase"

def EXPORT_CASE : String := "ExportCase"

def VIEW_LOGS : String := "ViewLogs"

def EXPORT_LOGS : String := "ExportLogs"

/-- The body of the loop in `EvaluatePermission`
(api/middlewareHandler.go:305-351): the `switch` on the needed
permission name, reading the matching flag of one role; names outside
the ten cases fall through to `false`. -/
def roleHasPermission (role : Role) (neededPermission : String) : Bool :=
  if neededPermission == RENAME_GROUP then role.renameGroup
  else if neededPermission == DELETE_GROUP then role.deleteGroup
  else if neededPermission == INVITE_MEMBER then role.inviteMember
  else if neededPermission == REMOVE_MEMBER then role.removeMember
  else if neededPermission == CREATE_CASE then role.createCase
  else if neededPermission == UPDATE_CASE_METADATA then role.updateCaseMetadata
  else if neededPermission == DELETE_CASE then role.deleteCase
  else if neededPermission == EXPORT_CASE then role.exportCase
  else if neededPermission == VIEW_LOGS then role.viewLogs
  else if neededPermission == EXPORT_LOGS then role.exportLogs
  else false

/-- `EvaluatePermission` (api/middlewareHandler.go:305-351): true iff
some role in the list grants the needed permission; the Go loop
returns `true` at the first grant and `false` after the loop. -/
def EvaluatePermission (roles : List Role) (neededPermission : String) : Bool :=
  roles.any (fun role => roleHasPermission role neededPermission)

/-- The fixed capability catalog as a partial map from capability name
to the capability flag of a role, written from the spec's words "the
named capability flag"; names outside the catalog map to `none`.  Used
to compare `EvaluatePermission` against the spec. -/
def capabilityFlag (cap : String) : Option (Role → Bool) :=
  if cap == RENAME_GROUP then some Role.renameGroup
  else if cap == DELETE_GROUP then some Role.deleteGroup
  else if cap == INVITE_MEMBER then some Role.inviteMember
  else if cap == REMOVE_MEMBER then some Role.removeMember
  else if cap == CREATE_CASE then some Role.createCase
  else if cap == UPDATE_CASE_METADATA then some Role.updateCaseMetadata
  else if cap == DELETE_CASE then some Role.deleteCase
  else if cap == EXPORT_CASE then some Role.exportCase
  else if cap == VIEW_LOGS then some Role.viewLogs
  else if cap == EXPORT_LOGS then some Role.exportLogs
  else none

/-! ### Bulk role upsert (repository/role.go:348-412)

`updateRoles` spawns one goroutine per input role and joins them with a
`WaitGroup`; each goroutine writes its failure, if any, to one shared
`_err` variable.  The embedding executes the goroutine bodies in spawn
order, one admissible schedule of the Go program, and threads `(db, _err)`
through them.  Environmental SQL failures (the only way a unit of work
can fail) are injected by an `oracle` giving, per unit index, the error
code of that unit's failed statement, or `none` when its statements
succeed; a failed unit mutates nothing, exactly as in the source where
the failing statement is the only mutating one of the unit. -/

/-- `SELECT id FROM role WHERE id = ?` scanned into `id`: does a stored
role with this id exist (in any group; the source does not filter on
the group id). -/
def roleExists (db : DB) (roleId : String) : Bool :=
  db.roles.any (fun r => r.id == roleId)

/-- `INSERT INTO role VALUES (?, ?, ?, ...)`: the inserted row takes its
id, name and flags from the input role and its group id from the
`groupId` argument. -/
def insertRole (db : DB) (role : Role) (groupId : String) : DB :=
  { db with roles := db.roles ++ [{ role with groupId := groupId }] }

/-- `UPDATE role SET name = ?, ... WHERE id = ?`: every stored row with
the input role's id takes the input's name and flags; its id and group
id columns are not in the SET list and keep their stored values. -/
def updateRoleRow (stored : Role) (input : Role) : Role :=
  { stored with
      name := input.name
      renameGroup := input.renameGroup
      deleteGroup := input.deleteGroup
      inviteMember := input.inviteMember
      removeMember := input.removeMember
      createCase := input.createCase
      updateCaseMetadata := input.updateCaseMetadata
      deleteCase := input.deleteCase
      exportCase := input.exportCase
      viewLogs := input.viewLogs
      exportLogs := input.exportLogs }

/-- Apply the UPDATE statement of `updateRoles` to the store. -/
def updateRole (db : DB) (input : Role) : DB :=
  { db with roles := db.roles.map (fun s => if s.id == input.id then updateRoleRow s input else s) }

/-- One goroutine body of `updateRoles` (repository/role.go:374-408):
skip the unit when the input role is named "Group Owner"; otherwise,
on an injected failure record it in the shared error variable and
mutate nothing, else insert or update according to the existence
check. -/
def updateRolesUnit (fail : Option Nat) (groupId : String) (db : DB) (err : Option Nat)
    (role : Role) : DB × Option Nat :=
  if role.name == "Group Owner" then (db, err)
  else
    match fail with
    | some e => (db, some e)
    | none =>
      if roleExists db role.id then (updateRole db role, err)
      else (insertRole db role groupId, err)

/-- The units of `updateRoles` executed in spawn order, threading the
store and the shared error variable; `i` is the index of the next
unit. -/
def updateRolesAux (oracle : Nat → Option Nat) (groupId : String) :
    Nat → DB → Option Nat → List Role → DB × Option Nat
  | _, db, err, [] => (db, err)
  | i, db, err, role :: rest =>
    let step := updateRolesUnit (oracle i) groupId db err role
    updateRolesAux oracle groupId (i + 1) step.1 step.2 rest

/-- `updateRoles` (repository/role.go:348-412): final store and the
value of the shared `_err` variable returned to the caller. -/
def updateRoles (oracle : Nat → Option Nat) (db : DB) (roles : List Role) (groupId : String) :
    DB × Option Nat :=
  updateRolesAux oracle groupId 0 db none roles

/-- Indices of the units of work of `updateRoles` that run SQL (input
role not named "Group Owner") and fail under the oracle, in spawn
order, starting at index `i`. -/
def failingIdxs (oracle : Nat → Option Nat) : Nat → List Role → List Nat
  | _, [] => []
  | i, role :: rest =>
    (if !(role.name == "Group Owner") && (oracle i).isSome then [i] else []) ++
      failingIdxs oracle (i + 1) rest

/-- `deleteRole` (repository/role.go:318-338): deletes every
`user_role` row referencing the role, then the role row itself; there
is no check on the role's name. -/
def deleteRole (db : DB) (roleId : String) : DB :=
  { db with
      userRoles := db.userRoles.filter (fun ur => !(ur.roleId == roleId))
      roles := db.roles.filter (fun r => !(r.id == roleId)) }

/-! ### Membership operations (repository/core.go) -/

/-- `uuid.NewString()`: a fresh identifier and the advanced state. -/
def freshId (db : DB) : String × DB :=
  ("uuid-" ++ toString db.nextId, { db with nextId := db.nextId + 1 })

/-- Modelled from the spec: the stored procedure `GetUserOrganisations`
called by repository/core.go is database-side code not under src/;
spec sections 3 and 4.3 describe it as the groups the user is a member
of, i.e. the organisations reached from the user's membership rows. -/
def GetUserOrganisations (db : DB) (userId : String) : List Organisation :=
  db.organisations.filter
    (fun o => db.orgUsers.any (fun m => m.userId == userId && m.organisationId == o.id))

/-- `CreateGroupOwnerRole` (repository/role.go:252-279): inserts a role
named "Group Owner" with every capability flag true, scoped to the
group, and a `user_role` row binding it to the user. -/
def CreateGroupOwnerRole (db : DB) (groupId : String) (userId : String) : DB :=
  let idStep := freshId db
  let db2 := { idStep.2 with
                 roles := idStep.2.roles ++
                   [{ id := idStep.1, name := "Group Owner", groupId := groupId,
                      renameGroup := true, deleteGroup := true,
                      inviteMember := true, removeMember := true,
                      createCase := true, updateCaseMetadata := true,
                      deleteCase := true, exportCase := true,
                      viewLogs := true, exportLogs := true }] }
  let urStep := freshId db2
  { urStep.2 with
      userRoles := urStep.2.userRoles ++ [{ id := urStep.1, userId := userId, roleId := idStep.1 }] }

/-- `CreateOrganisationWithTx` (repository/core.go:800-830): inserts the
organisation row, the membership row for the creating user, and the
Group Owner role via `CreateGroupOwnerRole`. -/
def CreateOrganisationWithTx (db : DB) (name : String) (userId : String) : DB :=
  let orgStep := freshId db
  let db2 := { orgStep.2 with
                 organisations := orgStep.2.organisations ++ [{ id := orgStep.1, name := name }] }
  let muStep := freshId db2
  let db3 := { muStep.2 with
                 orgUsers := muStep.2.orgUsers ++
                   [{ id := muStep.1, userId := userId, organisationId := orgStep.1 }] }
  CreateGroupOwnerRole db3 orgStep.1 userId

/-- Membership rows deleted by
`DELETE FROM organisation_user WHERE userId = ? AND organisationId = ?`;
their number is the statement's RowsAffected. -/
def pairRows (db : DB) (userId : String) (organisationId : String) : List OrgUser :=
  db.orgUsers.filter (fun m => m.userId == userId && m.organisationId == organisationId)

/-- The store after that DELETE statement. -/
def deletePair (db : DB) (userId : String) (organisationId : String) : DB :=
  { db with
      orgUsers := db.orgUsers.filter
        (fun m => !(m.userId == userId && m.organisationId == organisationId)) }

/-- `RemoveUserFromOrganisationWithTx` (repository/core.go:754-798):
deletes the membership rows for the pair; NotFound when RowsAffected
is zero; then, when `GetUserOrganisations` returns no row for the
user, creates the default group "My organisation" for them inside the
same transaction. -/
def RemoveUserFromOrganisationWithTx (db : DB) (userId : String) (organisationId : String) :
    Except RepoError DB :=
  if (pairRows db userId organisationId).length = 0 then
    .error .notFound
  else
    let db2 := deletePair db userId organisationId
    if (GetUserOrganisations db2 userId).isEmpty then
      .ok (CreateOrganisationWithTx db2 "My organisation" userId)
    else
      .ok db2

/-- Number of membership rows a user holds across all groups. -/
def userMembershipCount (db : DB) (userId : String) : Nat :=
  (db.orgUsers.filter (fun m => m.userId == userId)).length

/-! ### Identity-verification stage (api/middlewareHandler.go:118-173) -/

/-- The character class `[a-zA-Z0-9]` of the user-exists route pattern. -/
def isAlphaNum (c : Char) : Bool :=
  (('a' ≤ c) && (c ≤ 'z')) || (('A' ≤ c) && (c ≤ 'Z')) || (('0' ≤ c) && (c ≤ '9'))

/-- The anchored pattern `/api/user/([a-zA-Z0-9]+)/exists` matched
against a whole path: prefix, suffix, and a nonempty alphanumeric
middle. -/
def matchesUserExists (p : String) : Bool :=
  let l := p.toList
  let pre := "/api/user/".toList
  let suf := "/exists".toList
  (decide (pre.length + suf.length + 1 ≤ l.length)) &&
    pre.isPrefixOf l && suf.isSuffixOf l &&
    ((l.drop pre.length).take (l.length - pre.length - suf.length)).all isAlphaNum

/-- Substring occurrence: the needle occurs contiguously somewhere in
the haystack. -/
def hasSubstr (needle : List Char) : List Char → Bool
  | [] => needle.isEmpty
  | c :: rest => needle.isPrefixOf (c :: rest) || hasSubstr needle rest

/-- The exempt-path allow-list of the middleware handler
(api/middlewareHandler.go:49-59).  All patterns except the user-exists
one are unanchored literal regular expressions, so they match exactly
when they occur as a substring of the request path. -/
def isExemptPath (p : String) : Bool :=
  let l := p.toList
  hasSubstr "/api/token/verify".toList l ||
    matchesUserExists p ||
    hasSubstr "/api/user/registerServiceUsed".toList l ||
    hasSubstr "/api/user/signup".toList l ||
    hasSubstr "/api/user/signup/email_password".toList l ||
    hasSubstr "/api/user/login".toList l ||
    hasSubstr "/api/user/start_password_reset".toList l ||
    hasSubstr "/api/user/reset_password".toList l ||
    hasSubstr "/api/group/join".toList l

/-- How the `verifyToken` middleware disposes of a request. -/
inductive VerifyOutcome where
  | skippedInternal
  | skippedExempt
  | abort (code : Nat)
  | success (userId : String)
deriving DecidableEq, Repr

/-- Observable effect of one `verifyToken` run: the disposition, whether
the identity provider (`firebase.VerifyToken`) was called, the user id
bound to the request context (`c.Set("userId", ...)`), and the uid of
an asynchronous `RevokeToken` call, if one was made. -/
structure VerifyResult where
  outcome : VerifyOutcome
  providerCalled : Bool
  boundUserId : Option String
  revokedUserId : Option String
deriving DecidableEq, Repr

/-- `verifyToken` (api/middlewareHandler.go:118-173).  `provider`
abstracts `firebase.VerifyToken` (token to subject uid, `none` on
verification failure) and `userKnown` abstracts the `UserExists`
lookup in the local user store.  The three header checks run before
any provider call: empty header, missing "Bearer " prefix, and empty
token after `strings.TrimPrefix`, each aborting with HTTP 400. -/
def verifyToken (internal : Bool) (path : String) (authorization : String)
    (provider : String → Option String) (userKnown : String → Bool) : VerifyResult :=
  if internal then
    { outcome := .skippedInternal, providerCalled := false,
      boundUserId := none, revokedUserId := none }
  else if isExemptPath path then
    { outcome := .skippedExempt, providerCalled := false,
      boundUserId := none, revokedUserId := none }
  else if authorization == "" then
    { outcome := .abort 400, providerCalled := false,
      boundUserId := none, revokedUserId := none }
  else if !("Bearer ".isPrefixOf authorization) then
    { outcome := .abort 400, providerCalled := false,
      boundUserId := none, revokedUserId := none }
  else
    let token := authorization.drop "Bearer ".length
    if token == "" then
      { outcome := .abort 400, providerCalled := false,
        boundUserId := none, revokedUserId := none }
    else
      match provider token with
      | none =>
        { outcome := .abort 403, providerCalled := true,
          boundUserId := none, revokedUserId := none }
      | some uid =>
        if userKnown uid then
          { outcome := .success uid, providerCalled := true,
            boundUserId := some uid, revokedUserId := none }
        else
          { outcome := .abort 403, providerCalled := true,
            boundUserId := none, revokedUserId := some uid }

/-! ### Audit stage (api/middlewareHandler.go:217-302) -/

/-- A row handed to the audit sink (`types.LogEntry`). -/
structure LogEntry where
  groupId : String
  action : String
  status : String
  userId : String
  email : String
  timestamp : String
deriving DecidableEq, Repr

/-- The static route-to-capability table `permissionMap`
(api/middlewareHandler.go:60-78), keyed by "METHOD fullPath". -/
def permissionMap : List (String × String) :=
  [("PATCH /api/group/:id/update", "RenameGroup"),
   ("DELETE /api/group/:id/delete", "DeleteGroup"),
   ("POST /api/group/member/invite", "InviteMember"),
   ("DELETE /api/group/member/remove", "RemoveMember"),
   ("", "")]

/-- Go map lookup `handler.permissionMap[key]`. -/
def permissionLookup (key : String) : Option String :=
  (permissionMap.find? (fun p => p.1 == key)).map (fun p => p.2)

/-- The status-code switch of `logUserAction`
(api/middlewareHandler.go:277-292): `var status string` starts as the
empty string and the switch has no default case. -/
def statusLabel (code : Nat) : String :=
  if code = 200 then "OK"
  else if code = 500 then "Error"
  else if code = 403 then "Forbidden"
  else if code = 409 then "OK"
  else if code = 400 then "Error"
  else if code = 401 then "Unauthorized"
  else ""

/-- The request-scoped inputs `logUserAction` reads: context flags set
by the earlier stages, the `id` path parameter, method and route
template, the response status at logging time, the context user id,
and the two sources for the acting user's email (the in-memory cache
and the user-store read, `none` when the read fails). -/
structure AuditCtx where
  internalService : Bool
  needsPermission : Bool
  hasPermission : Bool
  groupIdParam : Option String
  method : String
  fullPath : String
  writerStatus : Nat
  userIdCtx : String
  cachedEmail : Option String
  storeEmail : Option String
  timestamp : String
deriving DecidableEq, Repr

/-- `logUserAction` (api/middlewareHandler.go:217-302) restricted to the
audit entry it hands to the sink: `none` when the stage skips logging
(internal-service request, no capability required, or no `id` path
parameter), otherwise the entry built from the context.  The
forbidden/allowed branching only selects the response; the entry is
built either way. -/
def logUserAction (ctx : AuditCtx) : Option LogEntry :=
  if ctx.internalService then none
  else if !ctx.needsPermission then none
  else
    match ctx.groupIdParam with
    | none => none
    | some gid =>
      let action :=
        match permissionLookup (ctx.method ++ " " ++ ctx.fullPath) with
        | some a => a
        | none => ctx.fullPath
      let userId := if ctx.userIdCtx == "" then "None" else ctx.userIdCtx
      let email :=
        match ctx.cachedEmail with
        | some e => e
        | none =>
          match ctx.storeEmail with
          | none => "Error reading email"
          | some e => e
      some { groupId := gid, action := action, status := statusLabel ctx.writerStatus,
             userId := userId, email := email, timestamp := ctx.timestamp }

/-! ### Audit log sink (repository/log.go) -/

/-- The entry channel is created by `make(chan *types.LogEntry)`
(repository/log.go:81): an unbuffered channel, capacity zero. -/
def entryChanCapacity : Nat := 0

/-- `NewLogRepository` starts five writer goroutines
(repository/log.go:83-85). -/
def logWriterCount : Nat := 5

/-- Go channel semantics: a send completes without blocking the sender
exactly when the buffer has room or some receiver is already waiting
on the channel. -/
def sendCompletesWithoutBlocking (capacity : Nat) (queued : Nat) (readyReceivers : Nat) : Bool :=
  decide (queued < capacity) || decide (0 < readyReceivers)

/-- `NewEntry` (repository/log.go:91-93) is a bare send on the entry
channel.  A writer worker is ready to receive only between database
writes; with `busyWorkers` workers inside `stmt.Exec`, the send
returns without blocking iff this evaluates to true. -/
def newEntryNonBlocking (busyWorkers : Nat) : Bool :=
  sendCompletesWithoutBlocking entryChanCapacity 0 (logWriterCount - busyWorkers)

/-! ### Concrete scenario data -/

/-- The capability flags of a role, as the tuple set by the UPDATE and
INSERT statements of `updateRoles`. -/
def roleFlags (r : Role) : List Bool :=
  [r.renameGroup, r.deleteGroup, r.inviteMember, r.removeMember,
   r.createCase, r.updateCaseMetadata, r.deleteCase, r.exportCase,
   r.viewLogs, r.exportLogs]

/-- The Group Owner sentinel role of group "g", every capability true. -/
def ownerRole : Role :=
  { id := "rGO", name := "Group Owner", groupId := "g",
    renameGroup := true, deleteGroup := true, inviteMember := true, removeMember := true,
    createCase := true, updateCaseMetadata := true, deleteCase := true, exportCase := true,
    viewLogs := true, exportLogs := true }

/-- A role with the given id and name and every capability flag false. -/
def plainRole (rid : String) (rname : String) (gid : String) : Role :=
  { id := rid, name := rname, groupId := gid,
    renameGroup := false, deleteGroup := false, inviteMember := false, removeMember := false,
    createCase := false, updateCaseMetadata := false, deleteCase := false, exportCase := false,
    viewLogs := false, exportLogs := false }

/-- State where user u1 holds the Group Owner role of group "g" through
two duplicate `user_role` rows (`AddMemberRole` has no uniqueness
guard, so this state is reachable). -/
def dbDupOwner : DB :=
  { organisations := [{ id := "g", name := "G" }],
    orgUsers := [{ id := "m1", userId := "u1", organisationId := "g" }],
    roles := [ownerRole],
    userRoles := [{ id := "a", userId := "u1", roleId := "rGO" },
                  { id := "b", userId := "u1", roleId := "rGO" }],
    nextId := 0 }

/-- State where two distinct users u1 and u2 hold the Group Owner role
of group "g", one row each. -/
def dbTwoOwners : DB :=
  { organisations := [{ id := "g", name := "G" }],
    orgUsers := [{ id := "m1", userId := "u1", organisationId := "g" },
                 { id := "m2", userId := "u2", organisationId := "g" }],
    roles := [ownerRole],
    userRoles := [{ id := "a", userId := "u1", roleId := "rGO" },
                  { id := "b", userId := "u2", roleId := "rGO" }],
    nextId := 0 }

/-- State holding only the Group Owner sentinel of group "g". -/
def dbSentinelOnly : DB :=
  { organisations := [{ id := "g", name := "G" }],
    orgUsers := [{ id := "m1", userId := "u1", organisationId := "g" }],
    roles := [ownerRole],
    userRoles := [{ id := "a", userId := "u1", roleId := "rGO" }],
    nextId := 0 }

/-- An input role carrying the stored Group Owner role's id "rGO" under
a different name: the guard in `updateRoles` compares the input name,
so this input reaches the UPDATE statement. -/
def renamedOwnerInput : Role := plainRole "rGO" "Renamed" "g"

/-- The empty store. -/
def dbEmpty : DB :=
  { organisations := [], orgUsers := [], roles := [], userRoles := [], nextId := 0 }

/-- Failure oracle for the two-role upsert scenario: unit 0 fails with
error code 7, unit 1 fails with error code 13. -/
def oracleTwoFailures : Nat → Option Nat :=
  fun i => if i = 0 then some 7 else if i = 1 then some 13 else none

/-- State where user "u" is a member of exactly one group "g". -/
def dbSoleMember : DB :=
  { organisations := [{ id := "g", name := "G" }],
    orgUsers := [{ id := "m1", userId := "u", organisationId := "g" }],
    roles := [], userRoles := [], nextId := 0 }

/-- Audit-stage context of a capability-guarded request that ended with
HTTP 404 (a code outside the status switch). -/
def ctx404 : AuditCtx :=
  { internalService := false, needsPermission := true, hasPermission := true,
    groupIdParam := some "g", method := "GET", fullPath := "/api/group/:id/thing",
    writerStatus := 404, userIdCtx := "u", cachedEmail := none,
    storeEmail := some "u@example.com", timestamp := "t" }

/-- The audit entry `logUserAction` produces from `ctx404`. -/
def entry404 : LogEntry :=
  { groupId := "g", action := "/api/group/:id/thing", status := "",
    userId := "u", email := "u@example.com", timestamp := "t" }

/-! ## Theorems -/

/-- C1, counterexample: when user u1 holds the "Group Owner" role
through two duplicate assignment rows, the holder count is 2, so the
guard lets the call through, and the single DELETE removes both rows:
one successful `removeMemberRole` call drives the holder count of the
Group Owner role id to zero. -/
theorem removeMemberRole_dup_rows_empty_owner :
    holders dbDupOwner "rGO" = 2 ∧
    succeeded (RemoveMemberRole dbDupOwner "u1" "rGO") = true ∧
    holders (dbAfter dbDupOwner (RemoveMemberRole dbDupOwner "u1" "rGO")) "rGO" = 0 := by
  decide

/-- C3, counterexample: the anti-lockout guard of `updateRoles` tests
the caller-supplied name, so an input role that carries the stored
"Group Owner" role's id under a different name reaches the UPDATE
statement and mutates the stored sentinel: after the call no stored
role is named "Group Owner" any more. -/
theorem updateRoles_renames_stored_owner :
    dbSentinelOnly.roles.any (fun r => r.name == "Group Owner") = true ∧
    ((updateRoles (fun _ => none) dbSentinelOnly [renamedOwnerInput] "g").1).roles.any
        (fun r => r.name == "Group Owner") = false := by
  decide

/-- C6, counterexample: `deleteRole` deletes by id with no check of the
role's name, so a single call on the Group Owner role's id removes the
sentinel from the store. -/
theorem deleteRole_removes_owner_sentinel :
    dbSentinelOnly.roles.any (fun r => r.name == "Group Owner") = true ∧
    ((deleteRole dbSentinelOnly "rGO").roles.any (fun r => r.name == "Group Owner")) = false := by
  decide

/-- C7, counterexample: with two failing units of work the shared error
variable is overwritten by each failure, so the caller receives the
error of the last failing unit (code 13), not the first one
(code 7). -/
theorem updateRoles_returns_last_error_not_first :
    oracleTwoFailures 0 = some 7 ∧
    (updateRoles oracleTwoFailures dbEmpty
        [plainRole "ra" "A" "g", plainRole "rb" "B" "g"] "g").2 = some 13 ∧
    ¬((updateRoles oracleTwoFailures dbEmpty
        [plainRole "ra" "A" "g", plainRole "rb" "B" "g"] "g").2 = some 7) := by
  decide

/-- C8: `NewEntry` is a send on the unbuffered entry channel, so with
every writer worker busy inside a database write no receiver is ready
and the send blocks the caller; a send does complete without blocking
while some worker is idle.  This contradicts the claim that `NewEntry`
returns immediately regardless of database latency. -/
theorem newEntry_blocks_when_all_workers_busy :
    newEntryNonBlocking logWriterCount = false ∧ newEntryNonBlocking 0 = true := by
  decide

/-- C5: `removeMemberRole` on a role id that resolves to no stored role
fails with NotFound, and the store is left unchanged: the role lookup
precedes the DELETE, so no deletion is attempted. -/
theorem removeMemberRole_unknown_role_notFound (db : DB) (userId : String) (roleId : String)
    (h : findRole db roleId = none) :
    RemoveMemberRole db userId roleId = .error .notFound ∧
    dbAfter db (RemoveMemberRole db userId roleId) = db := by
  unfold RemoveMemberRole
  rw [h]
  exact ⟨rfl, rfl⟩

/-- C5, witness: the empty store at a concrete unknown role id. -/
theorem removeMemberRole_unknown_role_notFound_witness :
    RemoveMemberRole dbEmpty "u" "r" = .error .notFound ∧
    dbAfter dbEmpty (RemoveMemberRole dbEmpty "u" "r") = dbEmpty :=
  removeMemberRole_unknown_role_notFound dbEmpty "u" "r" (by decide)

/-- C9: whenever the audit stage emits an entry for a request that
required a capability, the entry's status is the label the status-code
switch assigns: 200 and 409 map to "OK", 500 and 400 to "Error", 403
to "Forbidden", 401 to "Unauthorized", and every other code (404
included) leaves the label as the empty string. -/
theorem logUserAction_status_mapping (ctx : AuditCtx) (e : LogEntry)
    (h : logUserAction ctx = some e) :
    e.status = statusLabel ctx.writerStatus ∧
    statusLabel 200 = "OK" ∧ statusLabel 409 = "OK" ∧
    statusLabel 500 = "Error" ∧ statusLabel 400 = "Error" ∧
    statusLabel 403 = "Forbidden" ∧ statusLabel 401 = "Unauthorized" ∧
    (∀ code : Nat, code ≠ 200 → code ≠ 409 → code ≠ 500 → code ≠ 400 →
      code ≠ 403 → code ≠ 401 → statusLabel code = "") := by
  refine ⟨?_, by decide, by decide, by decide, by decide, by decide, by decide, ?_⟩
  · unfold logUserAction at h
    split at h
    · exact absurd h (by simp)
    · split at h
      · exact absurd h (by simp)
      · split at h
        · exact absurd h (by simp)
        · injection h with h
          rw [← h]
  · intro code h1 h2 h3 h4 h5 h6
    unfold statusLabel
    simp [h1, h2, h3, h4, h5, h6]

/-- C9, witness: a capability-guarded request ending in HTTP 404 yields
an entry whose status is the empty string. -/
theorem logUserAction_status_mapping_witness :
    entry404.status = statusLabel ctx404.writerStatus :=
  (logUserAction_status_mapping ctx404 entry404 (by decide)).1

/-- C10: on a non-exempt path of a non-internal request, a missing
Authorization header, a header without the "Bearer " prefix, or an
empty token each terminate the request with HTTP 400 before any
identity-provider call and without binding a user id to the request
context. -/
theorem verifyToken_bad_header_400 (path : String) (authorization : String)
    (provider : String → Option String) (userKnown : String → Bool)
    (hexempt : isExemptPath path = false)
    (hbad : authorization = "" ∨ "Bearer ".isPrefixOf authorization = false ∨
      authorization.drop "Bearer ".length = "") :
    verifyToken false path authorization provider userKnown =
      { outcome := .abort 400, providerCalled := false,
        boundUserId := none, revokedUserId := none } := by
  by_cases h0 : authorization == ""
  · simp [verifyToken, hexempt, h0]
  · rcases hbad with h | h | h
    · exact absurd (by simp [h]) h0
    · simp [verifyToken, hexempt, h0, h]
    · by_cases h1 : ("Bearer ".isPrefixOf authorization)
      · simp [verifyToken, hexempt, h0, h1, h]
      · simp [verifyToken, hexempt, h0, h1]

/-- C10, witness: a group route with no Authorization header. -/
theorem verifyToken_bad_header_400_witness :
    verifyToken false "/api/group/g1/members" "" (fun _ => none) (fun _ => false) =
      { outcome := .abort 400, providerCalled := false,
        boundUserId := none, revokedUserId := none } :=
  verifyToken_bad_header_400 "/api/group/g1/members" "" (fun _ => none) (fun _ => false)
    (by decide) (Or.inl rfl)

/-- The switch body of `EvaluatePermission` agrees with the catalog
lookup: a name inside the catalog reads that flag, a name outside it
yields false. -/
theorem roleHasPermission_eq_catalog (r : Role) (cap : String) :
    roleHasPermission r cap =
      (match capabilityFlag cap with
       | some f => f r
       | none => false) := by
  unfold roleHasPermission capabilityFlag
  by_cases h1 : cap == RENAME_GROUP
  · simp [h1]
  by_cases h2 : cap == DELETE_GROUP
  · simp [h1, h2]
  by_cases h3 : cap == INVITE_MEMBER
  · simp [h1, h2, h3]
  by_cases h4 : cap == REMOVE_MEMBER
  · simp [h1, h2, h3, h4]
  by_cases h5 : cap == CREATE_CASE
  · simp [h1, h2, h3, h4, h5]
  by_cases h6 : cap == UPDATE_CASE_METADATA
  · simp [h1, h2, h3, h4, h5, h6]
  by_cases h7 : cap == DELETE_CASE
  · simp [h1, h2, h3, h4, h5, h6, h7]
  by_cases h8 : cap == EXPORT_CASE
  · simp [h1, h2, h3, h4, h5, h6, h7, h8]
  by_cases h9 : cap == VIEW_LOGS
  · simp [h1, h2, h3, h4, h5, h6, h7, h8, h9]
  by_cases h10 : cap == EXPORT_LOGS
  · simp [h1, h2, h3, h4, h5, h6, h7, h8, h9, h10]
  simp [h1, h2, h3, h4, h5, h6, h7, h8, h9, h10]

/-- C2: `EvaluatePermission` is a pure function of its two arguments;
it is true exactly when the capability name is in the catalog and some
role in the list has that flag set, it is false on the empty role
list, and false (not an error) for a name outside the catalog. -/
theorem evaluatePermission_catalog_spec (roles : List Role) (cap : String) :
    (EvaluatePermission roles cap = true ↔
      ∃ f, capabilityFlag cap = some f ∧ ∃ r ∈ roles, f r = true) ∧
    EvaluatePermission [] cap = false ∧
    (capabilityFlag cap = none → EvaluatePermission roles cap = false) ∧
    EvaluatePermission roles cap = EvaluatePermission roles cap := by
  have hiff : EvaluatePermission roles cap = true ↔
      ∃ f, capabilityFlag cap = some f ∧ ∃ r ∈ roles, f r = true := by
    rw [EvaluatePermission, List.any_eq_true]
    cases hflag : capabilityFlag cap with
    | none =>
      constructor
      · rintro ⟨r, hr, hperm⟩
        rw [roleHasPermission_eq_catalog, hflag] at hperm
        exact absurd hperm (by simp)
      · rintro ⟨f, hf, _⟩
        exact absurd hf (by simp)
    | some f =>
      constructor
      · rintro ⟨r, hr, hperm⟩
        rw [roleHasPermission_eq_catalog, hflag] at hperm
        exact ⟨f, rfl, r, hr, hperm⟩
      · rintro ⟨f2, hf2, r, hr, hfr⟩
        injection hf2 with hf2
        exact ⟨r, hr, by rw [roleHasPermission_eq_catalog, hflag, hf2]; exact hfr⟩
  refine ⟨hiff, rfl, ?_, rfl⟩
  intro hnone
  cases hev : EvaluatePermission roles cap
  · rfl
  · obtain ⟨f, hf, _⟩ := hiff.mp hev
    rw [hnone] at hf
    exact absurd hf (by simp)

/-- C2, witness: a role list with every capability granted still
evaluates to false on a name outside the catalog. -/
theorem evaluatePermission_catalog_spec_witness :
    EvaluatePermission [ownerRole] "Bogus" = false :=
  (evaluatePermission_catalog_spec [ownerRole] "Bogus").2.2.1 rfl

/-- Counting a filter by q splits into the rows also satisfying p and
the rows not satisfying p. -/
theorem length_filter_split {α : Type} (l : List α) (p q : α → Bool) :
    (l.filter q).length =
      (l.filter fun x => q x && p x).length + (l.filter fun x => q x && !(p x)).length := by
  induction l with
  | nil => rfl
  | cons a t ih =>
    by_cases hp : p a <;> by_cases hq : q a <;>
      simp [List.filter_cons, hp, hq, ih] <;> omega

/-- C1, amended: when the removing user holds the role through at most
one assignment row, `removeMemberRole` cannot drive the holder count
of a "Group Owner" role to zero: with at most one holder it fails with
ForbiddenOperation and deletes nothing, and from a positive holder
count the count stays positive after the call.  (The duplicate-row
hypothesis is necessary: see the counterexample.) -/
theorem removeMemberRole_owner_guard (db : DB) (userId : String) (roleId : String)
    (hdup : (db.userRoles.filter fun ur => ur.userId == userId && ur.roleId == roleId).length ≤ 1) :
    ∀ role, findRole db roleId = some role → role.name = "Group Owner" →
      (holders db roleId ≤ 1 →
        RemoveMemberRole db userId roleId = .error .forbiddenOperation ∧
        dbAfter db (RemoveMemberRole db userId roleId) = db) ∧
      (1 ≤ holders db roleId →
        1 ≤ holders (dbAfter db (RemoveMemberRole db userId roleId)) roleId) := by
  intro role hfind hname
  have hforb : holders db roleId ≤ 1 →
      RemoveMemberRole db userId roleId = .error .forbiddenOperation := by
    intro hle
    unfold RemoveMemberRole
    rw [hfind]
    exact if_pos ⟨hname, hle⟩
  constructor
  · intro hle
    refine ⟨hforb hle, ?_⟩
    rw [hforb hle]
    rfl
  · intro hpos
    by_cases hle : holders db roleId ≤ 1
    · rw [hforb hle]
      exact hpos
    · push_neg at hle
      have hok : RemoveMemberRole db userId roleId = .ok (deleteUserRole db userId roleId) := by
        unfold RemoveMemberRole
        rw [hfind]
        exact if_neg (fun hc => (Nat.not_le_of_lt hle) hc.2)
      rw [hok]
      show 1 ≤ holders (deleteUserRole db userId roleId) roleId
      unfold deleteUserRole
      unfold holders at hle ⊢
      rw [List.filter_filter]
      have hsplit := length_filter_split db.userRoles
        (fun ur => ur.userId == userId && ur.roleId == roleId)
        (fun ur => ur.roleId == roleId)
      have hA : (db.userRoles.filter fun ur =>
          (ur.roleId == roleId) && (ur.userId == userId && ur.roleId == roleId)).length ≤ 1 := by
        refine le_trans ?_ hdup
        rw [← List.countP_eq_length_filter, ← List.countP_eq_length_filter]
        exact List.countP_mono_left (fun x _ hx => by
          simp only [Bool.and_eq_true] at hx
          simp [hx.2])
      omega

/-- C1, witness: two distinct owners u1 and u2; removing u1 leaves the
holder count at one. -/
theorem removeMemberRole_owner_guard_witness :
    1 ≤ holders (dbAfter dbTwoOwners (RemoveMemberRole dbTwoOwners "u1" "rGO")) "rGO" :=
  ((removeMemberRole_owner_guard dbTwoOwners "u1" "rGO" (by decide)) ownerRole
    (by decide) rfl).2 (by decide)

/-- A stored role whose id is carried by no executing input role (every
input role with its id is named "Group Owner" and therefore skipped)
survives a run of the upsert units unchanged. -/
theorem updateRolesAux_preserves (oracle : Nat → Option Nat) (gid : String) :
    ∀ (input : List Role) (i : Nat) (db : DB) (err : Option Nat) (s : Role),
      s ∈ db.roles →
      (∀ r ∈ input, r.id = s.id → r.name = "Group Owner") →
      s ∈ (updateRolesAux oracle gid i db err input).1.roles := by
  intro input
  induction input with
  | nil =>
    intro i db err s hs _
    exact hs
  | cons r rest ih =>
    intro i db err s hs hsafe
    simp only [updateRolesAux]
    refine ih (i + 1) _ _ s ?_ (fun r2 h2 => hsafe r2 (List.mem_cons_of_mem _ h2))
    unfold updateRolesUnit
    by_cases hGO : (r.name == "Group Owner") = true
    · rw [if_pos hGO]
      exact hs
    · rw [if_neg hGO]
      have hname : r.name ≠ "Group Owner" := by
        simpa using hGO
      cases horacle : oracle i with
      | some e => exact hs
      | none =>
        by_cases hex : roleExists db r.id = true
        · rw [if_pos hex]
          have hid : r.id ≠ s.id := fun heq => hname (hsafe r (List.mem_cons_self r rest) heq)
          have hsid : (s.id == r.id) = false := by
            rw [beq_eq_false_iff_ne]
            exact Ne.symm hid
          exact List.mem_map.mpr ⟨s, hs, by simp [updateRoleRow, hsid]⟩
        · rw [if_neg hex]
          exact List.mem_append_left _ hs

/-- In a failure-free run with duplicate-free input ids, every input
role not named "Group Owner" ends up in the store with its name and
flags: inserted when its id was absent, applied by UPDATE when
present. -/
theorem updateRolesAux_upserts (gid : String) :
    ∀ (input : List Role) (i : Nat) (db : DB) (err : Option Nat),
      (input.map (fun r => r.id)).Nodup →
      ∀ r ∈ input, r.name ≠ "Group Owner" →
        ∃ s ∈ (updateRolesAux (fun _ => none) gid i db err input).1.roles,
          s.id = r.id ∧ s.name = r.name ∧ roleFlags s = roleFlags r := by
  intro input
  induction input with
  | nil =>
    intro i db err _ r hr
    exact absurd hr (List.not_mem_nil r)
  | cons r0 rest ih =>
    intro i db err hnodup r hr hname
    have hpair : (∀ x ∈ rest, ¬x.id = r0.id) ∧ (List.map (fun y => y.id) rest).Nodup := by
      simpa using hnodup
    simp only [updateRolesAux]
    rcases List.mem_cons.mp hr with rfl | hr2
    · have hGO : (r.name == "Group Owner") = false := by
        rw [beq_eq_false_iff_ne]
        exact hname
      have hrow : ∃ s ∈ (updateRolesUnit none gid db err r).1.roles,
          s.id = r.id ∧ s.name = r.name ∧ roleFlags s = roleFlags r := by
        unfold updateRolesUnit
        rw [if_neg (by simp [hGO])]
        by_cases hex : roleExists db r.id = true
        · rw [if_pos hex]
          obtain ⟨s0, hs0, hid⟩ := List.any_eq_true.mp hex
          refine ⟨updateRoleRow s0 r, ?_, ?_, rfl, rfl⟩
          · exact List.mem_map.mpr ⟨s0, hs0, by simp [hid]⟩
          · simpa using hid
        · rw [if_neg hex]
          exact ⟨{ r with groupId := gid }, List.mem_append_right _ (by simp), rfl, rfl, rfl⟩
      obtain ⟨s, hsmem, hsid, hsname, hsflags⟩ := hrow
      refine ⟨s, updateRolesAux_preserves (fun _ => none) gid rest (i + 1) _ _ s hsmem ?_,
        hsid, hsname, hsflags⟩
      intro r2 h2 heq
      exact absurd (heq.trans hsid) (hpair.1 r2 h2)
    · exact ih (i + 1) _ _ hpair.2 r hr2 hname

/-- C3, amended: `upsertRoles` performs no insert and no update for an
input role named exactly "Group Owner"; a stored role named "Group
Owner" is left unchanged provided no input role carries its id under a
different name (the counterexample shows the caveat is necessary);
non-sentinel input roles are inserted or updated in place. -/
theorem updateRoles_owner_skip_spec (db : DB) (input : List Role) (gid : String)
    (oracle : Nat → Option Nat) :
    (∀ s ∈ db.roles, s.name = "Group Owner" →
        (∀ r ∈ input, r.id = s.id → r.name = "Group Owner") →
        s ∈ (updateRoles oracle db input gid).1.roles) ∧
    ((input.map (fun r => r.id)).Nodup →
        ∀ r ∈ input, r.name ≠ "Group Owner" →
          ∃ s ∈ (updateRoles (fun _ => none) db input gid).1.roles,
            s.id = r.id ∧ s.name = r.name ∧ roleFlags s = roleFlags r) := by
  constructor
  · intro s hs _ hsafe
    exact updateRolesAux_preserves oracle gid input 0 db none s hs hsafe
  · intro hnodup r hr hname
    exact updateRolesAux_upserts gid input 0 db none hnodup r hr hname

/-- C3, witness: upserting a fresh non-sentinel role leaves the stored
Group Owner role in place. -/
theorem updateRoles_owner_skip_spec_witness :
    ownerRole ∈
      (updateRoles (fun _ => none) dbSentinelOnly [plainRole "rE" "Editors" "g"] "g").1.roles :=
  (updateRoles_owner_skip_spec dbSentinelOnly [plainRole "rE" "Editors" "g"] "g" (fun _ => none)).1
    ownerRole (by decide) rfl (by decide)

/-- A run of `updateRoles` whose input roles are all named
"Group Owner" leaves the store untouched. -/
theorem updateRolesAux_all_owner_noop (oracle : Nat → Option Nat) (gid : String) :
    ∀ (input : List Role) (i : Nat) (db : DB) (err : Option Nat),
      (∀ r ∈ input, r.name = "Group Owner") →
      (updateRolesAux oracle gid i db err input).1 = db := by
  intro input
  induction input with
  | nil =>
    intro i db err _
    rfl
  | cons r rest ih =>
    intro i db err hall
    simp only [updateRolesAux]
    have hGO : (r.name == "Group Owner") = true := by
      simp [hall r (List.mem_cons_self r rest)]
    unfold updateRolesUnit
    rw [if_pos hGO]
    exact ih (i + 1) db err (fun r2 h2 => hall r2 (List.mem_cons_of_mem _ h2))

/-- C6, amended: `upsertRoles` never inserts or updates an input role
named "Group Owner", but `deleteRole` deletes by id with no name
check: it removes the role with the given id and its assignments even
when that role is the "Group Owner" sentinel, so the sentinel can be
removed through `deleteRole` (the counterexample exhibits this). -/
theorem deleteRole_no_name_guard (db : DB) (roleId : String) :
    (deleteRole db roleId).roles = db.roles.filter (fun r => !(r.id == roleId)) ∧
    (deleteRole db roleId).userRoles = db.userRoles.filter (fun ur => !(ur.roleId == roleId)) ∧
    (∀ r ∈ db.roles, r.id = roleId → r ∉ (deleteRole db roleId).roles) ∧
    (∀ (oracle : Nat → Option Nat) (gid : String) (input : List Role),
      (∀ r ∈ input, r.name = "Group Owner") → (updateRoles oracle db input gid).1 = db) := by
  refine ⟨rfl, rfl, ?_, ?_⟩
  · intro r hr hid hmem
    have := (List.mem_filter.mp hmem).2
    simp [hid] at this
  · intro oracle gid input hall
    exact updateRolesAux_all_owner_noop oracle gid input 0 db none hall

/-- C6, witness: deleting the sentinel's id removes it from the store. -/
theorem deleteRole_no_name_guard_witness :
    ownerRole ∉ (deleteRole dbSentinelOnly "rGO").roles :=
  (deleteRole_no_name_guard dbSentinelOnly "rGO").2.2.1 ownerRole (by decide) rfl

/-- Every index in the failing-unit list carries an injected failure. -/
theorem failingIdxs_isSome (oracle : Nat → Option Nat) :
    ∀ (input : List Role) (i : Nat) (j : Nat),
      j ∈ failingIdxs oracle i input → (oracle j).isSome = true := by
  intro input
  induction input with
  | nil =>
    intro i j h
    exact absurd h (List.not_mem_nil j)
  | cons r rest ih =>
    intro i j h
    simp only [failingIdxs] at h
    rcases List.mem_append.mp h with h1 | h2
    · split at h1
      · next hcond =>
        rcases List.mem_singleton.mp h1 with rfl
        simp only [Bool.and_eq_true] at hcond
        exact hcond.2
      · exact absurd h1 (List.not_mem_nil j)
    · exact ih (i + 1) j h2

/-- The shared error variable after a run of the upsert units holds the
failure of the last failing unit, or its initial value when no unit
fails: each failing unit overwrites it. -/
theorem updateRolesAux_err (oracle : Nat → Option Nat) (gid : String) :
    ∀ (input : List Role) (i : Nat) (db : DB) (err : Option Nat),
      (updateRolesAux oracle gid i db err input).2 =
        (match (failingIdxs oracle i input).getLast? with
         | some j => oracle j
         | none => err) := by
  intro input
  induction input with
  | nil =>
    intro i db err
    rfl
  | cons r rest ih =>
    intro i db err
    simp only [updateRolesAux, failingIdxs]
    rw [ih (i + 1)]
    rw [List.getLast?_append]
    cases hlast : (failingIdxs oracle (i + 1) rest).getLast? with
    | some j => simp
    | none =>
      simp only [Option.none_or]
      unfold updateRolesUnit
      by_cases hGO : (r.name == "Group Owner") = true
      · rw [if_pos hGO]
        simp [hGO]
      · rw [if_neg hGO]
        cases horacle : oracle i with
        | some e =>
          simp [hGO, horacle]
        | none =>
          by_cases hex : roleExists db r.id = true
          · rw [if_pos hex]
            simp [hGO, horacle]
          · rw [if_neg hex]
            simp [hGO, horacle]

/-- C7, amended: `upsertRoles` returns a non-nil error exactly when
some unit of work fails, and the error returned is that of the last
failing unit in processing order, not the first: the shared error
variable is overwritten by every failing unit. -/
theorem updateRoles_last_error_spec (oracle : Nat → Option Nat) (db : DB)
    (input : List Role) (gid : String) :
    ((updateRoles oracle db input gid).2 = none ↔ failingIdxs oracle 0 input = []) ∧
    (∀ j, (failingIdxs oracle 0 input).getLast? = some j →
      (updateRoles oracle db input gid).2 = oracle j) := by
  have herr := updateRolesAux_err oracle gid input 0 db none
  unfold updateRoles
  constructor
  · constructor
    · intro hnone
      by_contra hne
      obtain ⟨j, hj⟩ : ∃ j, (failingIdxs oracle 0 input).getLast? = some j := by
        cases h : (failingIdxs oracle 0 input).getLast? with
        | none => exact absurd (List.getLast?_eq_none_iff.mp h) hne
        | some j => exact ⟨j, rfl⟩
      rw [herr, hj] at hnone
      have hnone2 : oracle j = none := hnone
      have hsome := failingIdxs_isSome oracle input 0 j (List.mem_of_getLast?_eq_some hj)
      rw [hnone2] at hsome
      simp at hsome
    · intro hnil
      rw [herr, hnil]
      rfl
  · intro j hj
    rw [herr, hj]

/-- C7, witness: with units 0 and 1 both failing, the returned error is
the one injected at unit 1, the last. -/
theorem updateRoles_last_error_spec_witness :
    (updateRoles oracleTwoFailures dbEmpty
      [plainRole "ra" "A" "g", plainRole "rb" "B" "g"] "g").2 = oracleTwoFailures 1 :=
  (updateRoles_last_error_spec oracleTwoFailures dbEmpty
      [plainRole "ra" "A" "g", plainRole "rb" "B" "g"] "g").2 1 (by decide)

/-- C4: `removeUserFromGroup` deletes exactly the membership rows of
the (user, group) pair; it fails with NotFound when the DELETE affects
zero rows; when the deletion succeeds and leaves the user with zero
memberships system-wide, a group named "My organisation" is created
with the user as member inside the same transaction, leaving the user
with exactly one membership. -/
theorem removeUserFromOrganisation_spec (db : DB) (userId : String) (orgId : String) :
    ((pairRows db userId orgId).length = 0 →
        RemoveUserFromOrganisationWithTx db userId orgId = .error .notFound) ∧
    ((pairRows db userId orgId).length ≠ 0 →
      (GetUserOrganisations (deletePair db userId orgId) userId ≠ [] →
        RemoveUserFromOrganisationWithTx db userId orgId = .ok (deletePair db userId orgId)) ∧
      (userMembershipCount (deletePair db userId orgId) userId = 0 →
        RemoveUserFromOrganisationWithTx db userId orgId =
          .ok (CreateOrganisationWithTx (deletePair db userId orgId) "My organisation" userId) ∧
        userMembershipCount
          (CreateOrganisationWithTx (deletePair db userId orgId) "My organisation" userId)
          userId = 1 ∧
        ∃ o ∈ (CreateOrganisationWithTx (deletePair db userId orgId)
                  "My organisation" userId).organisations,
          o.name = "My organisation" ∧
          ((CreateOrganisationWithTx (deletePair db userId orgId)
              "My organisation" userId).orgUsers.any
            (fun m => m.userId == userId && m.organisationId == o.id)) = true)) := by
  constructor
  · intro h0
    unfold RemoveUserFromOrganisationWithTx
    rw [if_pos h0]
  · intro hlen
    constructor
    · intro hne
      unfold RemoveUserFromOrganisationWithTx
      rw [if_neg hlen]
      rw [if_neg (by simpa using hne)]
    · intro hcnt
      have hfilter :
          (deletePair db userId orgId).orgUsers.filter (fun m => m.userId == userId) = [] :=
        List.length_eq_zero.mp hcnt
      have hmemnone := List.filter_eq_nil_iff.mp hfilter
      have horgs : GetUserOrganisations (deletePair db userId orgId) userId = [] := by
        unfold GetUserOrganisations
        apply List.filter_eq_nil_iff.mpr
        intro o ho hb
        obtain ⟨m, hm, hmp⟩ := List.any_eq_true.mp hb
        simp only [Bool.and_eq_true] at hmp
        exact absurd hmp.1 (by simpa using hmemnone m hm)
      refine ⟨?_, ?_, ?_⟩
      · unfold RemoveUserFromOrganisationWithTx
        rw [if_neg hlen]
        rw [if_pos (by rw [horgs]; rfl)]
      · unfold CreateOrganisationWithTx CreateGroupOwnerRole freshId userMembershipCount
        simp [List.filter_append]
        unfold userMembershipCount at hcnt
        simpa using hcnt
      · refine ⟨⟨"uuid-" ++ toString (deletePair db userId orgId).nextId, "My organisation"⟩,
          ?_, rfl, ?_⟩
        · unfold CreateOrganisationWithTx CreateGroupOwnerRole freshId
          simp
        · unfold CreateOrganisationWithTx CreateGroupOwnerRole freshId
          simp

/-- C4, witness: a user who belonged only to group "g" gets the default
group in the same call. -/
theorem removeUserFromOrganisation_spec_witness :
    RemoveUserFromOrganisationWithTx dbSoleMember "u" "g" =
      .ok (CreateOrganisationWithTx (deletePair dbSoleMember "u" "g") "My organisation" "u") :=
  (((removeUserFromOrganisation_spec dbSoleMember "u" "g").2 (by decide)).2 (by decide)).1

end UserService
